import Mathlib

/-!
Verification of the Google provider adapter (app/lib/modules/llm/providers/google.ts).

The adapter publishes a static model catalog, refreshes it from the vendor
model-listing endpoint (filtering and normalizing the returned entries), and
builds a model handle whose outgoing fetch renames the systemInstruction field
to system_instruction.  JavaScript strings are modelled as Lean strings, JS
numbers as integers (floating point is out of scope), JSON values by an
explicit inductive type, and JS truthiness by explicit predicates.
-/

/-- Association-list lookup used for JS object property access and for
Record<string, string> lookups (first matching key wins). -/
def jsLookup {β : Type} : List (String × β) → String → Option β
  | [], _ => none
  | (k₁, v) :: t, k => if k₁ = k then some v else jsLookup t k

/-- First JS-truthy string among a list of optional strings: models a chain of
JavaScript || over possibly-undefined strings, where the empty string is falsy. -/
def jsFirstTruthy : List (Option String) → Option String
  | [] => none
  | none :: t => jsFirstTruthy t
  | some s :: t => if s.isEmpty then jsFirstTruthy t else some s

/-- JS `x || d` for a possibly-undefined string x: the empty string is falsy. -/
def jsOrStr (o : Option String) (d : String) : String :=
  match o with
  | none => d
  | some s => if s.isEmpty then d else s

/-- JS `x || d` for a possibly-undefined integer x: zero is falsy. -/
def jsOrInt (o : Option Int) (d : Int) : Int :=
  match o with
  | none => d
  | some n => if n = 0 then d else n

/-- Does the list start with the given pattern? (character-wise comparison) -/
def headMatches : List Char → List Char → Bool
  | [], _ => true
  | _ :: _, [] => false
  | a :: as, b :: bs => decide (a = b) && headMatches as bs

/-- Does the pattern occur as a contiguous sublist? Models JS String.includes. -/
def hasSubList (pat : List Char) : List Char → Bool
  | [] => headMatches pat []
  | c :: cs => headMatches pat (c :: cs) || hasSubList pat cs

/-- JS `s.includes(pat)`. -/
def containsSub (pat s : String) : Bool := hasSubList pat.data s.data

/-- Replace the first occurrence of pat by repl; identity when pat is absent.
Models JS String.replace with a string pattern, which only replaces the first
occurrence. -/
def replaceFirstAux (pat repl : List Char) : List Char → List Char
  | [] => if headMatches pat [] then repl else []
  | c :: cs =>
    if headMatches pat (c :: cs) then repl ++ List.drop pat.length (c :: cs)
    else c :: replaceFirstAux pat repl cs

/-- JS `s.replace(pat, repl)` for a string pattern (first occurrence only). -/
def jsReplaceFirst (s pat repl : String) : String :=
  String.mk (replaceFirstAux pat.data repl.data s.data)

/-- The left-brace character, kept out of string literals. -/
def lbrace : Char := Char.ofNat 123

/-- The right-brace character, kept out of string literals. -/
def rbrace : Char := Char.ofNat 125

/-- JSON values; numbers are modelled as integers. -/
inductive Json : Type where
  | null : Json
  | bool : Bool → Json
  | num : Int → Json
  | str : String → Json
  | arr : List Json → Json
  | obj : List (String × Json) → Json

/-- JS truthiness of a JSON value. -/
def truthy : Json → Bool
  | Json.null => false
  | Json.bool b => b
  | Json.num n => decide (n ≠ 0)
  | Json.str s => !s.isEmpty
  | Json.arr _ => true
  | Json.obj _ => true

/-- JS truthiness of a possibly-undefined JSON value. -/
def jsTruthyOpt : Option Json → Bool
  | none => false
  | some j => truthy j

/-- JS property assignment `o[k] = v`: overwrites the value in place when the
key is present, otherwise appends the new property at the end. -/
def jsObjInsert (fs : List (String × Json)) (k : String) (v : Json) :
    List (String × Json) :=
  if fs.any (fun p => decide (p.1 = k)) then
    fs.map (fun p => if p.1 = k then (k, v) else p)
  else fs ++ [(k, v)]

/-- JS `delete o[k]`. -/
def jsDelete (fs : List (String × Json)) (k : String) : List (String × Json) :=
  fs.filter (fun p => !(decide (p.1 = k)))

/-- The ModelInfo record returned to the registry (fields as used by the code). -/
structure ModelInfo where
  name : String
  label : String
  provider : String
  maxTokenAllowed : Int
  maxCompletionTokens : Int
deriving DecidableEq

/-- A raw model entry of the vendor response, within the schema the code
dereferences: a string name, an optional string displayName and optional
integer token limits. -/
structure RawModel where
  name : String
  displayName : Option String
  inputTokenLimit : Option Int
  outputTokenLimit : Option Int
deriving DecidableEq

/-- The observable part of a fetch response: ok flag, status data and the
parsed JSON body (none when the body is not valid JSON). -/
structure FetchResponse where
  ok : Bool
  status : Nat
  statusText : String
  body : Option Json

/-- The data of the model handle built by getModelInstance: the resolved key,
the endpoint passed to the SDK, and the requested model id. -/
structure GoogleHandle where
  apiKey : String
  endpoint : String
  modelId : String
deriving DecidableEq

/-- The instance fields of the GoogleProvider class. -/
structure GoogleProviderState where
  name : String
  getApiKeyLink : String
  apiTokenKey : String
  staticModels : List ModelInfo
deriving DecidableEq

/-- The static catalog (staticModels field of the class). -/
def staticModels : List ModelInfo :=
  [{ name := "gemini-2.5-pro", label := "Gemini 2.5 Pro", provider := "Google",
     maxTokenAllowed := 1048576, maxCompletionTokens := 65536 },
   { name := "gemini-2.5-flash", label := "Gemini 2.5 Flash", provider := "Google",
     maxTokenAllowed := 1048576, maxCompletionTokens := 65536 }]

/-- The initial provider instance. -/
def initGoogleProvider : GoogleProviderState :=
  { name := "Google",
    getApiKeyLink := "https://aistudio.google.com/app/apikey",
    apiTokenKey := "GOOGLE_GENERATIVE_AI_API_KEY",
    staticModels := staticModels }

/-- Modelled from the spec: the key-resolution helper getProviderBaseUrlAndKey
belongs to the base-provider abstraction, which the spec excludes from this
module; per the spec, a key is resolved from the provided apiKeys map, the
provider settings, or the server environment (under the default token key), in
that order, a missing or empty entry counting as unresolved. -/
def resolveApiKey (pname : String) (apiKeys : List (String × String))
    (settingsKey : Option String) (env : List (String × String))
    (tokKey : String) : Option String :=
  jsFirstTruthy [jsLookup apiKeys pname, settingsKey, jsLookup env tokKey]

/-- `serverEnv?.GOOGLE_API_VERSION || 'v1beta'`. -/
def googleApiVersion (env : List (String × String)) : String :=
  jsOrStr (jsLookup env "GOOGLE_API_VERSION") "v1beta"

/-- `serverEnv?.GOOGLE_BASE_URL || 'https://generativelanguage.googleapis.com'`. -/
def googleBaseUrl (env : List (String × String)) : String :=
  jsOrStr (jsLookup env "GOOGLE_BASE_URL") "https://generativelanguage.googleapis.com"

/-- The MODELS_ENDPOINT template string of getDynamicModels. -/
def modelsEndpoint (env : List (String × String)) (apiKey : String) : String :=
  googleBaseUrl env ++ "/" ++ googleApiVersion env ++ "/models?key=" ++ apiKey

/-- The ENDPOINT template string of getModelInstance. -/
def googleEndpoint (env : List (String × String)) : String :=
  googleBaseUrl env ++ "/" ++ googleApiVersion env

/-- Modelled fragment of the displayName property: absent or a string.  A
value of another type (for example a number) does not make the code throw -
the template literal at the label simply coerces it - but it falls outside
the fragment in which the entry is modelled. -/
def decodeOptStr : Option Json → Option (Option String)
  | none => some none
  | some (Json.str s) => some (some s)
  | some _ => none

/-- Modelled fragment of a token-limit property: absent or a number.  A value
of another type does not make the code throw - it only flows through the
coercing operators ||, > and Math.min - but it falls outside the fragment in
which the entry is modelled. -/
def decodeOptInt : Option Json → Option (Option Int)
  | none => some none
  | some (Json.num n) => some (some n)
  | some _ => none

/-- Decode one entry of the models array into the schema in which the code is
modelled exactly: an object with a string name, an optional string
displayName and optional numeric token limits.  Outside this schema the JS
behavior splits: some entries throw a TypeError (null, or an object whose
name has no includes method), while others are processed by coercion without
throwing (numeric displayName, string-valued limits, array-valued names);
only the null throw case is asserted by a theorem, the rest are outside the
modelled input space. -/
def decodeModel : Json → Option RawModel
  | Json.obj fs =>
    match jsLookup fs "name", decodeOptStr (jsLookup fs "displayName"),
        decodeOptInt (jsLookup fs "inputTokenLimit"),
        decodeOptInt (jsLookup fs "outputTokenLimit") with
    | some (Json.str n), some d, some i, some o => some ⟨n, d, i, o⟩
    | _, _, _, _ => none
  | _ => none

/-- The filter predicate of getDynamicModels:
`(model.outputTokenLimit || 0) > 8000` and
`!model.name.includes('exp') || model.name.includes('flash-exp')`. -/
def keepModel (m : RawModel) : Bool :=
  decide (8000 < jsOrInt m.outputTokenLimit 0) &&
    (!(containsSub "exp" m.name) || containsSub "flash-exp" m.name)

/-- The filter predicate as the specification words it: an entry is kept iff
its outputTokenLimit (0 when absent) is strictly greater than 8000 and its
name either does not contain the substring exp or contains flash-exp. -/
def specKeep (m : RawModel) : Bool :=
  decide (8000 < (m.outputTokenLimit.getD 0)) &&
    (!(containsSub "exp" m.name) || containsSub "flash-exp" m.name)

/-- The context-window part of the label:
`contextWindow >= 1000000 ? Math.floor(cw/1000000)+'M' : Math.floor(cw/1000)+'k'`. -/
def ctxLabel (cw : Int) : String :=
  if 1000000 ≤ cw then toString (Int.fdiv cw 1000000) ++ "M"
  else toString (Int.fdiv cw 1000) ++ "k"

/-- The map step of getDynamicModels, normalizing one kept entry. -/
def normalizeModel (pname : String) (m : RawModel) : ModelInfo :=
  let modelName := jsReplaceFirst m.name "models/" ""
  let cw0 := jsOrInt m.inputTokenLimit 32000
  let cw1 := if containsSub "gemini-1.5-pro" modelName then 2000000 else cw0
  let cw := if containsSub "gemini-1.5-flash" modelName then 1000000 else cw1
  let completionTokens := min (jsOrInt m.outputTokenLimit 8192) 128000
  { name := modelName,
    label := m.displayName.getD "undefined" ++ " (" ++ ctxLabel cw ++ " context)",
    provider := pname,
    maxTokenAllowed := cw,
    maxCompletionTokens := completionTokens }

/-- Extract the models array of the response body, exactly when the body
passes the validity check of the code: the body must be a truthy object whose
models property is an array. -/
def jsBodyModels : Json → Option (List Json)
  | Json.obj fs =>
    match jsLookup fs "models" with
    | some (Json.arr xs) => some xs
    | _ => none
  | _ => none

/-- Decode every entry of the models array; none when some entry is outside
the modelled schema (such entries may or may not throw in the JS; see
decodeModel). -/
def decodeModels : List Json → Option (List RawModel)
  | [] => some []
  | j :: t =>
    match decodeModel j with
    | none => none
    | some r =>
      match decodeModels t with
      | none => none
      | some rs => some (r :: rs)

/-- The body-processing tail of getDynamicModels: validate the parsed body,
then filter and normalize the entries.  The error branch for an undecodable
entry conservatively collapses every entry outside the modelled schema; the
theorems assert that branch only where the JS provably throws (a null entry)
and assert the success branch only when every entry decodes. -/
def getDynamicModelsBody (pname : String) (body : Json) :
    Except String (List ModelInfo) :=
  match jsBodyModels body with
  | none => Except.error "Invalid response format from Google API"
  | some entries =>
    match decodeModels entries with
    | none => Except.error "model entry outside the modelled schema"
    | some raws => Except.ok ((raws.filter keepModel).map (normalizeModel pname))

/-- The response-processing tail of getDynamicModels: reject a non-ok
response, parse the body, and process it. -/
def getDynamicModelsFetch (pname : String) (resp : FetchResponse) :
    Except String (List ModelInfo) :=
  if resp.ok then
    match resp.body with
    | none => Except.error "SyntaxError: response body is not valid JSON"
    | some body => getDynamicModelsBody pname body
  else
    Except.error ("Failed to fetch models from Google API: " ++
      toString resp.status ++ " " ++ resp.statusText)

/-- getDynamicModels: resolve the key, fetch the model listing from the
MODELS_ENDPOINT, and process the response.  The network is modelled by a
function from the requested URL to the response. -/
def getDynamicModels (pname tokKey : String) (apiKeys : List (String × String))
    (settingsKey : Option String) (env : List (String × String))
    (f : String → FetchResponse) : Except String (List ModelInfo) :=
  match resolveApiKey pname apiKeys settingsKey env tokKey with
  | none => Except.error ("Missing Api Key configuration for " ++ pname ++ " provider")
  | some apiKey => getDynamicModelsFetch pname (f (modelsEndpoint env apiKey))

/-- getModelInstance: resolve the key and build the handle configured with the
key and the ENDPOINT. -/
def getModelInstance (pname : String) (apiKeys : List (String × String))
    (settingsKey : Option String) (env : List (String × String))
    (modelId : String) : Except String GoogleHandle :=
  match resolveApiKey pname apiKeys settingsKey env "GOOGLE_GENERATIVE_AI_API_KEY" with
  | none => Except.error ("Missing API key for " ++ pname ++ " provider")
  | some apiKey =>
    Except.ok { apiKey := apiKey, endpoint := googleEndpoint env, modelId := modelId }

/-- Method call on the provider instance: getDynamicModels reads this.name and
writes no instance field, so the instance is returned unchanged. -/
def getDynamicModelsS (p : GoogleProviderState) (apiKeys : List (String × String))
    (settingsKey : Option String) (env : List (String × String))
    (f : String → FetchResponse) :
    Except String (List ModelInfo) × GoogleProviderState :=
  (getDynamicModels p.name "GOOGLE_GENERATIVE_AI_API_KEY" apiKeys settingsKey env f, p)

/-- Method call on the provider instance: getModelInstance reads this.name and
writes no instance field, so the instance is returned unchanged. -/
def getModelInstanceS (p : GoogleProviderState) (apiKeys : List (String × String))
    (settingsKey : Option String) (env : List (String × String))
    (modelId : String) : Except String GoogleHandle × GoogleProviderState :=
  (getModelInstance p.name apiKeys settingsKey env modelId, p)

/-- Is an Except value a success? -/
def isOkE {ε α : Type} : Except ε α → Bool
  | Except.ok _ => true
  | Except.error _ => false

/-- Hexadecimal digit (lowercase), for control-character escapes. -/
def hexDigit (n : Nat) : Char :=
  if n < 10 then Char.ofNat (48 + n) else Char.ofNat (87 + n)

/-- JSON.stringify escaping of one character. -/
def escChar (c : Char) : List Char :=
  if c = '"' then ['\\', '"']
  else if c = '\\' then ['\\', '\\']
  else if c = '\n' then ['\\', 'n']
  else if c = '\r' then ['\\', 'r']
  else if c = '\t' then ['\\', 't']
  else if c = Char.ofNat 8 then ['\\', 'b']
  else if c = Char.ofNat 12 then ['\\', 'f']
  else if c.toNat < 32 then
    ['\\', 'u', '0', '0', hexDigit (c.toNat / 16), hexDigit (c.toNat % 16)]
  else [c]

/-- JSON.stringify rendering of a string, quotes included. -/
def escString (s : String) : String :=
  String.mk ('"' :: (s.data.map escChar).flatten ++ ['"'])

mutual

/-- JSON.stringify (compact form, as called with a single argument). -/
def stringifyJson : Json → String
  | Json.null => "null"
  | Json.bool true => "true"
  | Json.bool false => "false"
  | Json.num n => toString n
  | Json.str s => escString s
  | Json.arr xs => "[" ++ stringifyArr xs ++ "]"
  | Json.obj fs => String.mk [lbrace] ++ stringifyObj fs ++ String.mk [rbrace]

/-- Comma-separated rendering of array elements. -/
def stringifyArr : List Json → String
  | [] => ""
  | [x] => stringifyJson x
  | x :: y :: t => stringifyJson x ++ "," ++ stringifyArr (y :: t)

/-- Comma-separated rendering of object members. -/
def stringifyObj : List (String × Json) → String
  | [] => ""
  | [(k, v)] => escString k ++ ":" ++ stringifyJson v
  | (k, v) :: p :: t => escString k ++ ":" ++ stringifyJson v ++ "," ++ stringifyObj (p :: t)

end

/-- Skip JSON whitespace. -/
def skipWs : List Char → List Char
  | [] => []
  | c :: cs => if c = ' ' ∨ c = '\t' ∨ c = '\n' ∨ c = '\r' then skipWs cs else c :: cs

/-- Resolve one escape character of a JSON string literal (the \uXXXX form is
not modelled; a string using it simply fails to parse). -/
def unescape (c : Char) : Option Char :=
  if c = '"' then some '"'
  else if c = '\\' then some '\\'
  else if c = '/' then some '/'
  else if c = 'b' then some (Char.ofNat 8)
  else if c = 'f' then some (Char.ofNat 12)
  else if c = 'n' then some '\n'
  else if c = 'r' then some '\r'
  else if c = 't' then some '\t'
  else none

/-- Parse the body of a JSON string literal after the opening quote, up to and
including the closing quote; returns the decoded characters and the rest. -/
def parseStringBody : List Char → Option (List Char × List Char)
  | [] => none
  | c :: cs =>
    if c = '"' then some ([], cs)
    else if c = '\\' then
      match cs with
      | [] => none
      | e :: cs2 =>
        match unescape e with
        | some d =>
          match parseStringBody cs2 with
          | some (out, rest) => some (d :: out, rest)
          | none => none
        | none => none
    else if c.toNat < 32 then none
    else
      match parseStringBody cs with
      | some (out, rest) => some (c :: out, rest)
      | none => none

/-- Longest digit run at the head of the input. -/
def spanDigits : List Char → List Char × List Char
  | [] => ([], [])
  | c :: cs =>
    if c.isDigit then
      let p := spanDigits cs
      (c :: p.1, p.2)
    else ([], c :: cs)

/-- JSON forbids superfluous leading zeros. -/
def noLeadZero : List Char → Bool
  | '0' :: _ :: _ => false
  | _ => true

/-- Digit run to number. -/
def digitsToNat (ds : List Char) : Nat :=
  ds.foldl (fun a c => a * 10 + (c.toNat - 48)) 0

/-- Parse a JSON integer literal (fractions and exponents are not modelled;
a number using them makes the whole parse fail). -/
def parseIntTok : List Char → Option (Int × List Char)
  | '-' :: cs =>
    match spanDigits cs with
    | ([], _) => none
    | (ds, r) => if noLeadZero ds then some (-(digitsToNat ds : Int), r) else none
  | cs =>
    match spanDigits cs with
    | ([], _) => none
    | (ds, r) => if noLeadZero ds then some ((digitsToNat ds : Int), r) else none

/-- Strip an expected literal tail such as rue, alse, ull. -/
def stripLit (lit cs : List Char) : Option (List Char) :=
  if headMatches lit cs then some (List.drop lit.length cs) else none

mutual

/-- Fuel-indexed JSON value parser; consumes leading whitespace. -/
def parseValue : Nat → List Char → Option (Json × List Char)
  | 0, _ => none
  | fuel + 1, cs =>
    match skipWs cs with
    | [] => none
    | c :: cs1 =>
      if c = '"' then
        match parseStringBody cs1 with
        | some (out, rest) => some (Json.str (String.mk out), rest)
        | none => none
      else if c = lbrace then
        match skipWs cs1 with
        | [] => none
        | c2 :: rest =>
          if c2 = rbrace then some (Json.obj [], rest)
          else
            match parseMembers fuel cs1 [] with
            | some (fs, rest2) => some (Json.obj fs, rest2)
            | none => none
      else if c = '[' then
        match skipWs cs1 with
        | [] => none
        | c2 :: rest =>
          if c2 = ']' then some (Json.arr [], rest)
          else
            match parseElems fuel cs1 [] with
            | some (xs, rest2) => some (Json.arr xs, rest2)
            | none => none
      else if c = 't' then
        match stripLit ['r', 'u', 'e'] cs1 with
        | some rest => some (Json.bool true, rest)
        | none => none
      else if c = 'f' then
        match stripLit ['a', 'l', 's', 'e'] cs1 with
        | some rest => some (Json.bool false, rest)
        | none => none
      else if c = 'n' then
        match stripLit ['u', 'l', 'l'] cs1 with
        | some rest => some (Json.null, rest)
        | none => none
      else if c = '-' ∨ c.isDigit then
        match parseIntTok (c :: cs1) with
        | some (n, rest) => some (Json.num n, rest)
        | none => none
      else none

/-- Fuel-indexed parser of the elements of a non-empty JSON array, after the
opening bracket. -/
def parseElems : Nat → List Char → List Json → Option (List Json × List Char)
  | 0, _, _ => none
  | fuel + 1, cs, acc =>
    match parseValue fuel cs with
    | none => none
    | some (v, rest) =>
      match skipWs rest with
      | ',' :: rest2 => parseElems fuel rest2 (acc ++ [v])
      | ']' :: rest2 => some (acc ++ [v], rest2)
      | _ => none

/-- Fuel-indexed parser of the members of a non-empty JSON object, after the
opening brace; duplicate keys behave as in JS (first position, last value). -/
def parseMembers : Nat → List Char → List (String × Json) →
    Option (List (String × Json) × List Char)
  | 0, _, _ => none
  | fuel + 1, cs, acc =>
    match skipWs cs with
    | '"' :: cs1 =>
      match parseStringBody cs1 with
      | none => none
      | some (key, cs2) =>
        match skipWs cs2 with
        | ':' :: cs3 =>
          match parseValue fuel cs3 with
          | none => none
          | some (v, cs4) =>
            match skipWs cs4 with
            | ',' :: cs5 => parseMembers fuel cs5 (jsObjInsert acc (String.mk key) v)
            | c :: cs5 =>
              if c = rbrace then some (jsObjInsert acc (String.mk key) v, cs5) else none
            | [] => none
        | _ => none
    | _ => none

end

/-- JSON.parse: parse a value and require only whitespace after it. -/
def jsonParse (s : String) : Option Json :=
  match parseValue (s.length + 1) s.data with
  | some (j, rest) =>
    match skipWs rest with
    | [] => some j
    | _ => none
  | none => none

/-- The quoted key the patched fetch searches for in the raw body. -/
def quotedSI : String := "\"systemInstruction\""

/-- The systemInstruction rename performed on the parsed body:
`parsed.system_instruction = parsed.systemInstruction; delete parsed.systemInstruction`. -/
def renameSI (fs : List (String × Json)) : List (String × Json) :=
  match jsLookup fs "systemInstruction" with
  | some v => jsDelete (jsObjInsert fs "system_instruction" v) "systemInstruction"
  | none => fs

/-- The body transformation of the patched fetch installed by getModelInstance:
if the raw body contains the quoted key, parse it; when parsing succeeds, the
value is an object and its systemInstruction is truthy, rename the field and
restringify; in every other case (including a parse error, which the code
catches and logs) the body is left unchanged. -/
def patchBody (s : String) : String :=
  if containsSub quotedSI s then
    match jsonParse s with
    | some (Json.obj fs) =>
      if jsTruthyOpt (jsLookup fs "systemInstruction") then
        stringifyJson (Json.obj (renameSI fs))
      else s
    | some _ => s
    | none => s
  else s

/-- Request options as forwarded by the patched fetch: the body (a string, as
sent by the SDK) plus every other option, kept abstract. -/
structure FetchOpts (ρ : Type) where
  body : Option String
  rest : ρ
deriving DecidableEq

/-- The patched fetch forwards the URL unchanged and the options with only the
body possibly rewritten. -/
def patchedRequest {ρ : Type} (url : String) (opts : FetchOpts ρ) :
    String × FetchOpts ρ :=
  (url, { opts with
            body := match opts.body with
                    | none => none
                    | some s => some (patchBody s) })

/-- The normalization as the amended specification words it: the name is the
entry name with the first occurrence of models/ removed; maxTokenAllowed is
the inputTokenLimit when present and nonzero and 32000 otherwise, overridden
to 1000000 for names containing gemini-1.5-flash and else to 2000000 for
names containing gemini-1.5-pro; maxCompletionTokens is the minimum of the
outputTokenLimit (8192 when absent) and 128000; the provider is Google; the
label is the displayName followed by the rendered context window. -/
def specNormalizeC2 (m : RawModel) : ModelInfo :=
  let n := jsReplaceFirst m.name "models/" ""
  let cw :=
    if containsSub "gemini-1.5-flash" n then 1000000
    else if containsSub "gemini-1.5-pro" n then 2000000
    else
      match m.inputTokenLimit with
      | none => 32000
      | some i => if i = 0 then 32000 else i
  { name := n,
    label := m.displayName.getD "undefined" ++ " (" ++
      (if 1000000 ≤ cw then toString (Int.fdiv cw 1000000) ++ "M"
       else toString (Int.fdiv cw 1000) ++ "k") ++ " context)",
    provider := "Google",
    maxTokenAllowed := cw,
    maxCompletionTokens := min (m.outputTokenLimit.getD 8192) 128000 }

/-- Test fixture: a well-formed model entry as returned by the listing API. -/
def goodEntry : Json :=
  Json.obj [("name", Json.str "models/gemini-2.5-pro"),
            ("displayName", Json.str "Gemini 2.5 Pro"),
            ("inputTokenLimit", Json.num 1048576),
            ("outputTokenLimit", Json.num 65536)]

/-- Test fixture: the decoded form of goodEntry. -/
def goodRaw : RawModel :=
  ⟨"models/gemini-2.5-pro", some "Gemini 2.5 Pro", some 1048576, some 65536⟩

/-- Test fixture: a well-formed listing body. -/
def goodBody : Json := Json.obj [("models", Json.arr [goodEntry])]

/-- Test fixture: an ok response carrying goodBody. -/
def goodResp : FetchResponse := ⟨true, 200, "OK", some goodBody⟩

/-- Test fixture: a network returning goodResp for every URL. -/
def goodFetch : String → FetchResponse := fun _ => goodResp

/-- Test fixture: an ok response whose models array contains null. -/
def badResp : FetchResponse :=
  ⟨true, 200, "OK", some (Json.obj [("models", Json.arr [Json.null])])⟩

/-- Test fixture: a network returning badResp for every URL. -/
def badFetch : String → FetchResponse := fun _ => badResp

/-- Test fixture: an entry that the claimed prefix-stripping and
absent-default readings mispredict: the name contains models/ not as a
prefix, and the inputTokenLimit is present but zero. -/
def cxRaw : RawModel := ⟨"x-models/y", some "D", some 0, some 9000⟩

/-- Test fixture: a request body whose systemInstruction value is null. -/
def cxBody : String := "\x7b\"systemInstruction\":null\x7d"

/-- Test fixture: a request body that contains the quoted key but is not
valid JSON (the object is never closed). -/
def cxTrunc : String := "\x7b\"systemInstruction\""

/-- Test fixture: a request body with a truthy systemInstruction. -/
def okBody : String := "\x7b\"systemInstruction\":\"hi\"\x7d"

/-- rest is a suffix of cs. -/
def tailOf (rest cs : List Char) : Prop := ∃ pre, cs = pre ++ rest

theorem jsOrInt_zero (o : Option Int) : jsOrInt o 0 = o.getD 0 := by
  cases o with
  | none => rfl
  | some n =>
    by_cases h : n = 0 <;> simp [jsOrInt, h]

theorem keep_eq_spec (m : RawModel) : keepModel m = specKeep m := by
  unfold keepModel specKeep
  rw [jsOrInt_zero]

theorem keep_out (m : RawModel) (h : keepModel m = true) :
    ∃ n, m.outputTokenLimit = some n ∧ 8000 < n := by
  unfold keepModel jsOrInt at h
  cases ho : m.outputTokenLimit with
  | none => rw [ho] at h; simp at h
  | some n =>
    rw [ho] at h
    by_cases hn : n = 0
    · simp [hn] at h
    · simp [hn] at h
      exact ⟨n, rfl, h.1⟩

/-- C6: the static catalog consists of exactly the two entries gemini-2.5-pro
and gemini-2.5-flash, each with provider Google, maxTokenAllowed 1048576 and
maxCompletionTokens 65536. -/
theorem staticModels_catalog :
    staticModels.map (fun m => m.name) = ["gemini-2.5-pro", "gemini-2.5-flash"] ∧
    staticModels.all (fun m =>
      decide (m.provider = "Google") && decide (m.maxTokenAllowed = 1048576) &&
        decide (m.maxCompletionTokens = 65536)) = true :=
  ⟨rfl, rfl⟩

/-- C8: neither method writes any field of the provider instance: the instance
coming out of a call is the one that went in, field by field, whether the call
returns a value or an error, and a second call with the same arguments and the
same network returns the same result. -/
theorem provider_state_frame (p : GoogleProviderState)
    (apiKeys : List (String × String)) (settingsKey : Option String)
    (env : List (String × String)) (f : String → FetchResponse) (modelId : String) :
    (getDynamicModelsS p apiKeys settingsKey env f).2 = p ∧
    (getModelInstanceS p apiKeys settingsKey env modelId).2 = p ∧
    getDynamicModelsS ((getDynamicModelsS p apiKeys settingsKey env f).2)
        apiKeys settingsKey env f = getDynamicModelsS p apiKeys settingsKey env f ∧
    getModelInstanceS ((getModelInstanceS p apiKeys settingsKey env modelId).2)
        apiKeys settingsKey env modelId = getModelInstanceS p apiKeys settingsKey env modelId ∧
    (getDynamicModelsS p apiKeys settingsKey env f).2.name = p.name ∧
    (getDynamicModelsS p apiKeys settingsKey env f).2.getApiKeyLink = p.getApiKeyLink ∧
    (getDynamicModelsS p apiKeys settingsKey env f).2.apiTokenKey = p.apiTokenKey ∧
    (getDynamicModelsS p apiKeys settingsKey env f).2.staticModels = p.staticModels :=
  ⟨rfl, rfl, rfl, rfl, rfl, rfl, rfl, rfl⟩

/-- C5: getModelInstance throws exactly when no API key resolves from the
provided apiKeys, the provider settings, or the server environment; when a key
resolves it returns the handle configured with that key and with the endpoint
built from GOOGLE_BASE_URL (default generativelanguage host) and
GOOGLE_API_VERSION (default v1beta). -/
theorem getModelInstance_key_endpoint (pname modelId : String)
    (apiKeys : List (String × String)) (settingsKey : Option String)
    (env : List (String × String)) :
    (resolveApiKey pname apiKeys settingsKey env "GOOGLE_GENERATIVE_AI_API_KEY" = none →
      getModelInstance pname apiKeys settingsKey env modelId =
        Except.error ("Missing API key for " ++ pname ++ " provider")) ∧
    (∀ key,
      resolveApiKey pname apiKeys settingsKey env "GOOGLE_GENERATIVE_AI_API_KEY" = some key →
      getModelInstance pname apiKeys settingsKey env modelId =
        Except.ok { apiKey := key,
                    endpoint := jsOrStr (jsLookup env "GOOGLE_BASE_URL")
                        "https://generativelanguage.googleapis.com" ++ "/" ++
                      jsOrStr (jsLookup env "GOOGLE_API_VERSION") "v1beta",
                    modelId := modelId }) := by
  constructor
  · intro h
    simp [getModelInstance, h]
  · intro key h
    simp [getModelInstance, h, googleEndpoint, googleBaseUrl, googleApiVersion]

/-- Witness for C5 at a concrete key map, empty settings and environment. -/
theorem getModelInstance_key_endpoint_witness :
    getModelInstance "Google" [("Google", "K")] none [] "gemini-2.5-pro" =
      Except.ok { apiKey := "K",
                  endpoint := "https://generativelanguage.googleapis.com/v1beta",
                  modelId := "gemini-2.5-pro" } :=
  (getModelInstance_key_endpoint "Google" "gemini-2.5-pro" [("Google", "K")] none []).2
    "K" rfl

/-- C7 counterexample: with GOOGLE_BASE_URL present but equal to the empty
string, the code falls back to the default host, while the claim (default only
when unset) predicts a URL starting with the empty base. -/
theorem modelsEndpoint_empty_env_cx :
    modelsEndpoint [("GOOGLE_BASE_URL", "")] "K" =
      "https://generativelanguage.googleapis.com/v1beta/models?key=K" ∧
    modelsEndpoint [("GOOGLE_BASE_URL", "")] "K" ≠ "/v1beta/models?key=K" :=
  ⟨rfl, by decide⟩

/-- C7 (amended): the URL queried by getDynamicModels is exactly
GOOGLE_BASE_URL (default host when unset or empty) ++ / ++ GOOGLE_API_VERSION
(v1beta when unset or empty) ++ /models?key= ++ the resolved key: the call
consults the network only at that URL. -/
theorem modelsEndpoint_queried (pname tokKey : String)
    (apiKeys : List (String × String)) (settingsKey : Option String)
    (env : List (String × String)) (f g : String → FetchResponse) (key : String)
    (hk : resolveApiKey pname apiKeys settingsKey env tokKey = some key)
    (hfg : f (modelsEndpoint env key) = g (modelsEndpoint env key)) :
    modelsEndpoint env key =
      jsOrStr (jsLookup env "GOOGLE_BASE_URL")
          "https://generativelanguage.googleapis.com" ++ "/" ++
        jsOrStr (jsLookup env "GOOGLE_API_VERSION") "v1beta" ++ "/models?key=" ++ key ∧
    getDynamicModels pname tokKey apiKeys settingsKey env f =
      getDynamicModels pname tokKey apiKeys settingsKey env g := by
  constructor
  · rfl
  · simp [getDynamicModels, hk, hfg]

/-- Witness for C7 at a concrete key map and environment. -/
theorem modelsEndpoint_queried_witness :
    modelsEndpoint [("GOOGLE_API_VERSION", "v1")] "K" =
      "https://generativelanguage.googleapis.com/v1/models?key=K" ∧
    getDynamicModels "Google" "GOOGLE_GENERATIVE_AI_API_KEY" [("Google", "K")] none
        [("GOOGLE_API_VERSION", "v1")] goodFetch =
      getDynamicModels "Google" "GOOGLE_GENERATIVE_AI_API_KEY" [("Google", "K")] none
        [("GOOGLE_API_VERSION", "v1")] goodFetch :=
  modelsEndpoint_queried "Google" "GOOGLE_GENERATIVE_AI_API_KEY" [("Google", "K")] none
    [("GOOGLE_API_VERSION", "v1")] goodFetch goodFetch "K" rfl rfl

theorem getDynamicModels_ok_eq (pname tokKey : String)
    (apiKeys : List (String × String)) (settingsKey : Option String)
    (env : List (String × String)) (f : String → FetchResponse) (key : String)
    (body : Json) (entries : List Json) (raws : List RawModel)
    (hk : resolveApiKey pname apiKeys settingsKey env tokKey = some key)
    (hok : (f (modelsEndpoint env key)).ok = true)
    (hb : (f (modelsEndpoint env key)).body = some body)
    (he : jsBodyModels body = some entries)
    (hd : decodeModels entries = some raws) :
    getDynamicModels pname tokKey apiKeys settingsKey env f =
      Except.ok ((raws.filter keepModel).map (normalizeModel pname)) := by
  simp [getDynamicModels, hk, getDynamicModelsFetch, hok, hb, getDynamicModelsBody, he, hd]

/-- C1: when the response carries an array models field (whose entries decode
into the schema the filter dereferences), getDynamicModels returns exactly the
entries passing the filter worded as in the specification - outputTokenLimit
(0 when absent) strictly greater than 8000 and a name that either does not
contain exp or contains flash-exp - normalized, in their original order. -/
theorem getDynamicModels_filter_spec (pname tokKey : String)
    (apiKeys : List (String × String)) (settingsKey : Option String)
    (env : List (String × String)) (f : String → FetchResponse) (key : String)
    (body : Json) (entries : List Json) (raws : List RawModel)
    (hk : resolveApiKey pname apiKeys settingsKey env tokKey = some key)
    (hok : (f (modelsEndpoint env key)).ok = true)
    (hb : (f (modelsEndpoint env key)).body = some body)
    (he : jsBodyModels body = some entries)
    (hd : decodeModels entries = some raws) :
    getDynamicModels pname tokKey apiKeys settingsKey env f =
      Except.ok ((raws.filter specKeep).map (normalizeModel pname)) ∧
    (raws.filter specKeep).Sublist raws := by
  have hfk : raws.filter keepModel = raws.filter specKeep :=
    List.filter_congr (fun m _ => keep_eq_spec m)
  constructor
  · rw [← hfk]
    exact getDynamicModels_ok_eq pname tokKey apiKeys settingsKey env f key body
      entries raws hk hok hb he hd
  · exact List.filter_sublist raws

/-- Witness for C1 at a concrete single-entry listing. -/
theorem getDynamicModels_filter_spec_witness :
    getDynamicModels "Google" "GOOGLE_GENERATIVE_AI_API_KEY" [("Google", "K")] none []
        goodFetch =
      Except.ok (([goodRaw].filter specKeep).map (normalizeModel "Google")) ∧
    ([goodRaw].filter specKeep).Sublist [goodRaw] :=
  getDynamicModels_filter_spec "Google" "GOOGLE_GENERATIVE_AI_API_KEY" [("Google", "K")]
    none [] goodFetch "K" goodBody [goodEntry] [goodRaw] rfl rfl rfl rfl rfl

/-- C2 counterexample: a kept entry whose name contains models/ not as a
prefix, and whose inputTokenLimit is present but zero.  The code removes the
first occurrence of models/ (not a prefix) and replaces the zero limit by
32000, while the claim predicts the name unchanged and maxTokenAllowed zero. -/
theorem normalizeModel_cx :
    keepModel cxRaw = true ∧
    (normalizeModel "Google" cxRaw).name = "x-y" ∧
    (normalizeModel "Google" cxRaw).name ≠ "x-models/y" ∧
    (normalizeModel "Google" cxRaw).maxTokenAllowed = 32000 ∧
    (normalizeModel "Google" cxRaw).maxTokenAllowed ≠ 0 :=
  ⟨rfl, rfl, by decide, rfl, by decide⟩

/-- C2 (amended): every entry kept by the filter is normalized to the
ModelInfo described by the specification, with the name being the entry name
with the first occurrence of models/ removed (not only a prefix) and with a
present-but-zero inputTokenLimit also falling back to 32000. -/
theorem normalizeModel_spec (m : RawModel) (h : keepModel m = true) :
    normalizeModel "Google" m = specNormalizeC2 m := by
  obtain ⟨n, ho, hn8⟩ := keep_out m h
  have hnz : ¬(n = 0) := by omega
  simp [normalizeModel, specNormalizeC2, jsOrInt, ctxLabel, ho, hnz]

/-- Witness for C2 at a concrete kept entry. -/
theorem normalizeModel_spec_witness :
    normalizeModel "Google" goodRaw = specNormalizeC2 goodRaw :=
  normalizeModel_spec goodRaw rfl

/-- C10: every ModelInfo returned by getDynamicModels has a
maxCompletionTokens strictly above 8000, at most 128000, and provider Google. -/
theorem getDynamicModels_bounds (tokKey : String)
    (apiKeys : List (String × String)) (settingsKey : Option String)
    (env : List (String × String)) (f : String → FetchResponse)
    (l : List ModelInfo)
    (h : getDynamicModels "Google" tokKey apiKeys settingsKey env f = Except.ok l) :
    ∀ mi ∈ l, 8000 < mi.maxCompletionTokens ∧ mi.maxCompletionTokens ≤ 128000 ∧
      mi.provider = "Google" := by
  unfold getDynamicModels getDynamicModelsFetch getDynamicModelsBody at h
  split at h
  · exact absurd h (by simp)
  · split at h
    · split at h
      · exact absurd h (by simp)
      · split at h
        · exact absurd h (by simp)
        · split at h
          · exact absurd h (by simp)
          · rename_i raws _
            injection h with h
            subst h
            intro mi hmi
            obtain ⟨m, hm, hmi⟩ := List.mem_map.mp hmi
            have hkeep : keepModel m = true := (List.mem_filter.mp hm).2
            obtain ⟨n, ho, hn8⟩ := keep_out m hkeep
            have hnz : ¬(n = 0) := by omega
            subst hmi
            refine ⟨?_, ?_, rfl⟩
            · simp [normalizeModel, jsOrInt, ho, hnz]
              omega
            · simp [normalizeModel, jsOrInt, ho, hnz]
    · exact absurd h (by simp)

/-- Witness for C10 at a concrete single-entry listing. -/
theorem getDynamicModels_bounds_witness :
    8000 < (normalizeModel "Google" goodRaw).maxCompletionTokens ∧
    (normalizeModel "Google" goodRaw).maxCompletionTokens ≤ 128000 ∧
    (normalizeModel "Google" goodRaw).provider = "Google" :=
  getDynamicModels_bounds "GOOGLE_GENERATIVE_AI_API_KEY" [("Google", "K")] none []
    goodFetch [normalizeModel "Google" goodRaw] rfl (normalizeModel "Google" goodRaw)
    (by simp)

/-- C4 counterexample: the key resolves, the response is ok and the body has
an array models field, yet the call fails, because the array contains null and
the filter dereferences null.outputTokenLimit (a TypeError in JS). -/
theorem getDynamicModels_null_entry_cx :
    resolveApiKey "Google" [("Google", "K")] none [] "GOOGLE_GENERATIVE_AI_API_KEY" =
      some "K" ∧
    badResp.ok = true ∧
    jsBodyModels (Json.obj [("models", Json.arr [Json.null])]) = some [Json.null] ∧
    isOkE (getDynamicModels "Google" "GOOGLE_GENERATIVE_AI_API_KEY" [("Google", "K")]
      none [] badFetch) = false :=
  ⟨rfl, rfl, rfl, rfl⟩

theorem decodeModels_null (entries : List Json) (h : Json.null ∈ entries) :
    decodeModels entries = none := by
  induction entries with
  | nil => cases h
  | cons j t ih =>
    cases List.mem_cons.mp h with
    | inl hj =>
      rw [← hj]
      rfl
    | inr hmem =>
      cases hd : decodeModel j <;> simp [decodeModels, hd, ih hmem]

/-- C4 (amended): each of the claimed conditions - missing key, non-ok
response, body without an array models field - makes getDynamicModels throw;
a null entry in the models array also makes it throw (a TypeError, missed by
the original claim); and whenever a key resolves, the response is ok, the
body has an array models field and every entry is an object with a string
name, optional string displayName and optional numeric token limits, it
returns the normalized list without throwing.  For entries outside that
schema but different from null, whether the code throws is governed by JS
coercion and is not characterized here. -/
theorem getDynamicModels_err_cases (pname tokKey : String)
    (apiKeys : List (String × String)) (settingsKey : Option String)
    (env : List (String × String)) (f : String → FetchResponse) :
    (resolveApiKey pname apiKeys settingsKey env tokKey = none →
      getDynamicModels pname tokKey apiKeys settingsKey env f =
        Except.error ("Missing Api Key configuration for " ++ pname ++ " provider")) ∧
    (∀ key, resolveApiKey pname apiKeys settingsKey env tokKey = some key →
      (f (modelsEndpoint env key)).ok = false →
      isOkE (getDynamicModels pname tokKey apiKeys settingsKey env f) = false) ∧
    (∀ key, resolveApiKey pname apiKeys settingsKey env tokKey = some key →
      (f (modelsEndpoint env key)).ok = true →
      (∀ body, (f (modelsEndpoint env key)).body = some body →
        jsBodyModels body = none) →
      isOkE (getDynamicModels pname tokKey apiKeys settingsKey env f) = false) ∧
    (∀ key body entries,
      resolveApiKey pname apiKeys settingsKey env tokKey = some key →
      (f (modelsEndpoint env key)).ok = true →
      (f (modelsEndpoint env key)).body = some body →
      jsBodyModels body = some entries →
      Json.null ∈ entries →
      isOkE (getDynamicModels pname tokKey apiKeys settingsKey env f) = false) ∧
    (∀ key body entries raws,
      resolveApiKey pname apiKeys settingsKey env tokKey = some key →
      (f (modelsEndpoint env key)).ok = true →
      (f (modelsEndpoint env key)).body = some body →
      jsBodyModels body = some entries →
      decodeModels entries = some raws →
      getDynamicModels pname tokKey apiKeys settingsKey env f =
        Except.ok ((raws.filter keepModel).map (normalizeModel pname))) := by
  refine ⟨?_, ?_, ?_, ?_, ?_⟩
  · intro h
    simp [getDynamicModels, h]
  · intro key hk hok
    simp [getDynamicModels, hk, getDynamicModelsFetch, hok, isOkE]
  · intro key hk hok hbm
    cases hb : (f (modelsEndpoint env key)).body with
    | none => simp [getDynamicModels, hk, getDynamicModelsFetch, hok, hb, isOkE]
    | some body =>
      have hnone := hbm body hb
      simp [getDynamicModels, hk, getDynamicModelsFetch, hok, hb,
        getDynamicModelsBody, hnone, isOkE]
  · intro key body entries hk hok hb he hnull
    have hd := decodeModels_null entries hnull
    simp [getDynamicModels, hk, getDynamicModelsFetch, hok, hb,
      getDynamicModelsBody, he, hd, isOkE]
  · intro key body entries raws hk hok hb he hd
    exact getDynamicModels_ok_eq pname tokKey apiKeys settingsKey env f key body
      entries raws hk hok hb he hd

/-- Witness for C4: a null entry makes the call fail, and a well-formed
single-entry listing returns the normalized list. -/
theorem getDynamicModels_err_cases_witness :
    isOkE (getDynamicModels "Google" "GOOGLE_GENERATIVE_AI_API_KEY" [("Google", "K")]
      none [] badFetch) = false ∧
    getDynamicModels "Google" "GOOGLE_GENERATIVE_AI_API_KEY" [("Google", "K")] none []
        goodFetch =
      Except.ok (([goodRaw].filter keepModel).map (normalizeModel "Google")) :=
  ⟨(getDynamicModels_err_cases "Google" "GOOGLE_GENERATIVE_AI_API_KEY" [("Google", "K")]
      none [] badFetch).2.2.2.1 "K" (Json.obj [("models", Json.arr [Json.null])])
      [Json.null] rfl rfl rfl rfl (by simp),
   (getDynamicModels_err_cases "Google" "GOOGLE_GENERATIVE_AI_API_KEY" [("Google", "K")]
      none [] goodFetch).2.2.2.2 "K" goodBody [goodEntry] [goodRaw] rfl rfl rfl rfl rfl⟩

theorem jsLookup_delete_self (fs : List (String × Json)) (k : String) :
    jsLookup (jsDelete fs k) k = none := by
  induction fs with
  | nil => rfl
  | cons p t ih =>
    obtain ⟨k1, v1⟩ := p
    by_cases h : k1 = k
    · simpa [jsDelete, List.filter_cons, h] using ih
    · simpa [jsDelete, List.filter_cons, h, jsLookup] using ih

theorem jsLookup_delete_ne (fs : List (String × Json)) (k k' : String)
    (h : ¬(k' = k)) : jsLookup (jsDelete fs k) k' = jsLookup fs k' := by
  induction fs with
  | nil => rfl
  | cons p t ih =>
    obtain ⟨k1, v1⟩ := p
    have h3 : ¬(k = k') := fun hh => h hh.symm
    by_cases h1 : k1 = k
    · have h2 : ¬(k1 = k') := by
        rw [h1]
        exact h3
      simpa [jsDelete, List.filter_cons, h1, jsLookup, h2, h3] using ih
    · by_cases h2 : k1 = k'
      · simp [jsDelete, List.filter_cons, h1, jsLookup, h2, h, h3]
      · simpa [jsDelete, List.filter_cons, h1, jsLookup, h2, h, h3] using ih

theorem any_false_lookup_none (fs : List (String × Json)) (k : String)
    (h : fs.any (fun p => decide (p.1 = k)) = false) : jsLookup fs k = none := by
  induction fs with
  | nil => rfl
  | cons p t ih =>
    obtain ⟨k1, v1⟩ := p
    rw [List.any_cons] at h
    cases hd : decide (k1 = k) with
    | false =>
      rw [hd, Bool.false_or] at h
      have h1 : ¬(k1 = k) := of_decide_eq_false hd
      simp [jsLookup, h1, ih h]
    | true =>
      rw [hd] at h
      simp at h

theorem jsLookup_map_set_self (fs : List (String × Json)) (k : String) (v : Json)
    (hA : fs.any (fun p => decide (p.1 = k)) = true) :
    jsLookup (fs.map (fun p => if p.1 = k then (k, v) else p)) k = some v := by
  induction fs with
  | nil => simp at hA
  | cons p t ih =>
    obtain ⟨k1, v1⟩ := p
    rw [List.map_cons]
    by_cases h1 : k1 = k
    · rw [if_pos (h1 : ((k1, v1) : String × Json).1 = k)]
      simp [jsLookup]
    · rw [if_neg (h1 : ¬(((k1, v1) : String × Json).1 = k))]
      rw [List.any_cons, decide_eq_false h1, Bool.false_or] at hA
      simpa [jsLookup, h1] using ih hA

theorem jsLookup_map_set_ne (fs : List (String × Json)) (k k' : String) (v : Json)
    (h : ¬(k' = k)) :
    jsLookup (fs.map (fun p => if p.1 = k then (k, v) else p)) k' = jsLookup fs k' := by
  induction fs with
  | nil => rfl
  | cons p t ih =>
    obtain ⟨k1, v1⟩ := p
    rw [List.map_cons]
    by_cases h1 : k1 = k
    · rw [if_pos (h1 : ((k1, v1) : String × Json).1 = k)]
      have h2 : ¬(k1 = k') := by
        rw [h1]
        exact fun hh => h hh.symm
      have h3 : ¬(k = k') := fun hh => h hh.symm
      simpa [jsLookup, h2, h3] using ih
    · rw [if_neg (h1 : ¬(((k1, v1) : String × Json).1 = k))]
      by_cases h2 : k1 = k'
      · simp [jsLookup, h2]
      · simpa [jsLookup, h2] using ih

theorem jsLookup_append_none (fs : List (String × Json)) (k : String) (v : Json)
    (h : jsLookup fs k = none) : jsLookup (fs ++ [(k, v)]) k = some v := by
  induction fs with
  | nil => simp [jsLookup]
  | cons p t ih =>
    obtain ⟨k1, v1⟩ := p
    by_cases h1 : k1 = k
    · simp [jsLookup, h1] at h
    · simp [jsLookup, h1] at h ⊢
      exact ih h

theorem jsLookup_append_ne (fs : List (String × Json)) (k k' : String) (v : Json)
    (h : ¬(k = k')) : jsLookup (fs ++ [(k, v)]) k' = jsLookup fs k' := by
  induction fs with
  | nil => simp [jsLookup, h]
  | cons p t ih =>
    obtain ⟨k1, v1⟩ := p
    by_cases h1 : k1 = k'
    · simp [jsLookup, h1]
    · simpa [jsLookup, h1] using ih

theorem jsLookup_insert_self (fs : List (String × Json)) (k : String) (v : Json) :
    jsLookup (jsObjInsert fs k v) k = some v := by
  unfold jsObjInsert
  by_cases hA : fs.any (fun p => decide (p.1 = k)) = true
  · simp only [hA, if_true]
    exact jsLookup_map_set_self fs k v hA
  · have hA' : fs.any (fun p => decide (p.1 = k)) = false := Bool.eq_false_iff.mpr hA
    simp only [hA', Bool.false_eq_true, if_false]
    exact jsLookup_append_none fs k v (any_false_lookup_none fs k hA')

theorem jsLookup_insert_ne (fs : List (String × Json)) (k k' : String) (v : Json)
    (h : ¬(k' = k)) : jsLookup (jsObjInsert fs k v) k' = jsLookup fs k' := by
  unfold jsObjInsert
  by_cases hA : fs.any (fun p => decide (p.1 = k)) = true
  · simp only [hA, if_true]
    exact jsLookup_map_set_ne fs k k' v h
  · have hA' : fs.any (fun p => decide (p.1 = k)) = false := Bool.eq_false_iff.mpr hA
    simp only [hA', Bool.false_eq_true, if_false]
    exact jsLookup_append_ne fs k k' v (fun hh => h hh.symm)

theorem renameSI_new (fs : List (String × Json)) (v : Json)
    (hv : jsLookup fs "systemInstruction" = some v) :
    jsLookup (renameSI fs) "system_instruction" = some v := by
  unfold renameSI
  rw [hv, jsLookup_delete_ne _ _ _ (by decide)]
  exact jsLookup_insert_self fs "system_instruction" v

theorem renameSI_old (fs : List (String × Json)) (v : Json)
    (hv : jsLookup fs "systemInstruction" = some v) :
    jsLookup (renameSI fs) "systemInstruction" = none := by
  unfold renameSI
  rw [hv]
  exact jsLookup_delete_self _ _

theorem renameSI_other (fs : List (String × Json)) (v : Json) (k : String)
    (hv : jsLookup fs "systemInstruction" = some v)
    (h1 : ¬(k = "systemInstruction")) (h2 : ¬(k = "system_instruction")) :
    jsLookup (renameSI fs) k = jsLookup fs k := by
  unfold renameSI
  rw [hv, jsLookup_delete_ne _ _ _ h1]
  exact jsLookup_insert_ne fs "system_instruction" k v h2

/-- C9: a request whose body contains the quoted systemInstruction key but is
not valid JSON is forwarded unchanged: the JSON.parse error is caught (and
logged) by the patch, which never rejects the request itself. -/
theorem patch_parse_error_forwards {ρ : Type} (url : String) (opts : FetchOpts ρ)
    (s : String) (hb : opts.body = some s)
    (h1 : containsSub quotedSI s = true)
    (h2 : jsonParse s = none) :
    patchedRequest url opts = (url, opts) := by
  have hpb : patchBody s = s := by
    simp [patchBody, h1, h2]
  obtain ⟨b, r⟩ := opts
  simp only [FetchOpts.body] at hb
  subst hb
  simp [patchedRequest, hpb]

/-- Witness for C9 at a concrete truncated body. -/
theorem patch_parse_error_forwards_witness :
    patchedRequest "u" ({ body := some cxTrunc, rest := () } : FetchOpts Unit) =
      ("u", { body := some cxTrunc, rest := () }) :=
  patch_parse_error_forwards "u" { body := some cxTrunc, rest := () } cxTrunc rfl rfl rfl

theorem tailOf_refl (l : List Char) : tailOf l l := ⟨[], rfl⟩

theorem tailOf_trans {a b c : List Char} (h1 : tailOf a b) (h2 : tailOf b c) :
    tailOf a c := by
  obtain ⟨p, hp⟩ := h1
  obtain ⟨q, hq⟩ := h2
  exact ⟨q ++ p, by rw [hq, hp, List.append_assoc]⟩

theorem tailOf_cons (c : Char) (l : List Char) : tailOf l (c :: l) := ⟨[c], rfl⟩

theorem tailOf_drop (n : Nat) (l : List Char) : tailOf (List.drop n l) l :=
  ⟨List.take n l, (List.take_append_drop n l).symm⟩

theorem skipWs_tail (cs : List Char) : tailOf (skipWs cs) cs := by
  induction cs with
  | nil => exact tailOf_refl []
  | cons c t ih =>
    by_cases h : c = ' ' ∨ c = '\t' ∨ c = '\n' ∨ c = '\r'
    · rw [show skipWs (c :: t) = skipWs t from by simp [skipWs, h]]
      exact tailOf_trans ih (tailOf_cons c t)
    · rw [show skipWs (c :: t) = c :: t from by simp [skipWs, h]]
      exact tailOf_refl _

theorem skipWs_cons_tail {a : List Char} {x : Char} {r : List Char}
    (h : skipWs a = x :: r) : tailOf r a :=
  tailOf_trans (tailOf_cons x r) (h ▸ skipWs_tail a)

theorem parseStringBody_tail_n : ∀ (n : Nat) (cs : List Char), cs.length ≤ n →
    ∀ out rest, parseStringBody cs = some (out, rest) → tailOf rest cs := by
  intro n
  induction n with
  | zero =>
    intro cs hl out rest h
    cases cs with
    | nil => simp [parseStringBody] at h
    | cons c t => simp at hl
  | succ n ih =>
    intro cs hl out rest h
    rw [parseStringBody.eq_def] at h
    split at h
    · exact absurd h (by simp)
    · rename_i c2 cs2
      split at h
      · -- quote
        simp only [Option.some.injEq, Prod.mk.injEq] at h
        obtain ⟨h1, h2⟩ := h
        subst h2
        exact tailOf_cons _ _
      · split at h
        · -- backslash: inner match on cs2
          split at h
          · exact absurd h (by simp)
          · rename_i e cs3
            split at h
            · split at h
              · rename_i out0 rest0 hrec
                simp only [Option.some.injEq, Prod.mk.injEq] at h
                obtain ⟨h1, h2⟩ := h
                subst h2
                have hlen : cs3.length ≤ n := by
                  simp at hl
                  omega
                exact tailOf_trans (ih cs3 hlen out0 rest0 hrec)
                  (tailOf_trans (tailOf_cons e cs3) (tailOf_cons c2 (e :: cs3)))
              · exact absurd h (by simp)
            · exact absurd h (by simp)
        · split at h
          · -- control character
            exact absurd h (by simp)
          · -- ordinary character
            split at h
            · rename_i out0 rest0 hrec
              simp only [Option.some.injEq, Prod.mk.injEq] at h
              obtain ⟨h1, h2⟩ := h
              subst h2
              have hlen : cs2.length ≤ n := by
                simp at hl
                omega
              exact tailOf_trans (ih cs2 hlen out0 rest0 hrec) (tailOf_cons c2 cs2)
            · exact absurd h (by simp)

theorem parseStringBody_tail (cs out rest : List Char)
    (h : parseStringBody cs = some (out, rest)) : tailOf rest cs :=
  parseStringBody_tail_n cs.length cs le_rfl out rest h

theorem spanDigits_tail (cs : List Char) : tailOf (spanDigits cs).2 cs := by
  induction cs with
  | nil => exact tailOf_refl []
  | cons c t ih =>
    by_cases hd : c.isDigit
    · rw [show spanDigits (c :: t) = (c :: (spanDigits t).1, (spanDigits t).2) from by
        simp [spanDigits, hd]]
      exact tailOf_trans ih (tailOf_cons c t)
    · rw [show spanDigits (c :: t) = ([], c :: t) from by simp [spanDigits, hd]]
      exact tailOf_refl _

theorem parseIntTok_tail (cs : List Char) (n : Int) (rest : List Char)
    (h : parseIntTok cs = some (n, rest)) : tailOf rest cs := by
  rw [parseIntTok.eq_def] at h
  split at h
  · rename_i cs1
    split at h
    · exact absurd h (by simp)
    · rename_i ds r heq hne
      split at h
      · simp only [Option.some.injEq, Prod.mk.injEq] at h
        obtain ⟨h1, h2⟩ := h
        subst h2
        have ht := spanDigits_tail cs1
        rw [hne] at ht
        exact tailOf_trans ht (tailOf_cons '-' cs1)
      · exact absurd h (by simp)
  · split at h
    · exact absurd h (by simp)
    · rename_i ds r heq hne
      split at h
      · simp only [Option.some.injEq, Prod.mk.injEq] at h
        obtain ⟨h1, h2⟩ := h
        subst h2
        have ht := spanDigits_tail cs
        rw [hne] at ht
        exact ht
      · exact absurd h (by simp)

theorem stripLit_tail (lit cs rest : List Char) (h : stripLit lit cs = some rest) :
    tailOf rest cs := by
  unfold stripLit at h
  split at h
  · injection h with h1
    rw [← h1]
    exact tailOf_drop _ _
  · exact absurd h (by simp)

theorem parse_tail (fuel : Nat) :
    (∀ cs j rest, parseValue fuel cs = some (j, rest) → tailOf rest cs) ∧
    (∀ cs acc xs rest, parseElems fuel cs acc = some (xs, rest) → tailOf rest cs) ∧
    (∀ cs acc fs rest, parseMembers fuel cs acc = some (fs, rest) → tailOf rest cs) := by
  induction fuel with
  | zero =>
    refine ⟨?_, ?_, ?_⟩
    · intro cs j rest h
      simp [parseValue] at h
    · intro cs acc xs rest h
      simp [parseElems] at h
    · intro cs acc fs rest h
      simp [parseMembers] at h
  | succ n ih =>
    obtain ⟨ihV, ihE, ihM⟩ := ih
    refine ⟨?_, ?_, ?_⟩
    · intro cs j rest h
      simp only [parseValue] at h
      split at h
      · exact absurd h (by simp)
      · rename_i c cs1 heq
        split at h
        · split at h
          · rename_i out0 rest0 hsb
            simp only [Option.some.injEq, Prod.mk.injEq] at h
            obtain ⟨h1, h2⟩ := h
            subst h2
            exact tailOf_trans (parseStringBody_tail cs1 out0 rest0 hsb) (skipWs_cons_tail heq)
          · exact absurd h (by simp)
        · split at h
          · split at h
            · exact absurd h (by simp)
            · rename_i c2 rest0 heq2
              split at h
              · simp only [Option.some.injEq, Prod.mk.injEq] at h
                obtain ⟨h1, h2⟩ := h
                subst h2
                exact tailOf_trans (skipWs_cons_tail heq2) (skipWs_cons_tail heq)
              · split at h
                · rename_i fs rest2 hm
                  simp only [Option.some.injEq, Prod.mk.injEq] at h
                  obtain ⟨h1, h2⟩ := h
                  subst h2
                  exact tailOf_trans (ihM cs1 [] fs rest2 hm) (skipWs_cons_tail heq)
                · exact absurd h (by simp)
          · split at h
            · split at h
              · exact absurd h (by simp)
              · rename_i c2 rest0 heq2
                split at h
                · simp only [Option.some.injEq, Prod.mk.injEq] at h
                  obtain ⟨h1, h2⟩ := h
                  subst h2
                  exact tailOf_trans (skipWs_cons_tail heq2) (skipWs_cons_tail heq)
                · split at h
                  · rename_i xs rest2 he
                    simp only [Option.some.injEq, Prod.mk.injEq] at h
                    obtain ⟨h1, h2⟩ := h
                    subst h2
                    exact tailOf_trans (ihE cs1 [] xs rest2 he) (skipWs_cons_tail heq)
                  · exact absurd h (by simp)
            · split at h
              · split at h
                · rename_i rest0 hsl
                  simp only [Option.some.injEq, Prod.mk.injEq] at h
                  obtain ⟨h1, h2⟩ := h
                  subst h2
                  exact tailOf_trans (stripLit_tail _ cs1 rest0 hsl) (skipWs_cons_tail heq)
                · exact absurd h (by simp)
              · split at h
                · split at h
                  · rename_i rest0 hsl
                    simp only [Option.some.injEq, Prod.mk.injEq] at h
                    obtain ⟨h1, h2⟩ := h
                    subst h2
                    exact tailOf_trans (stripLit_tail _ cs1 rest0 hsl) (skipWs_cons_tail heq)
                  · exact absurd h (by simp)
                · split at h
                  · split at h
                    · rename_i rest0 hsl
                      simp only [Option.some.injEq, Prod.mk.injEq] at h
                      obtain ⟨h1, h2⟩ := h
                      subst h2
                      exact tailOf_trans (stripLit_tail _ cs1 rest0 hsl) (skipWs_cons_tail heq)
                    · exact absurd h (by simp)
                  · split at h
                    · split at h
                      · rename_i n0 rest0 hint
                        simp only [Option.some.injEq, Prod.mk.injEq] at h
                        obtain ⟨h1, h2⟩ := h
                        subst h2
                        exact tailOf_trans (parseIntTok_tail (c :: cs1) n0 rest0 hint)
                          (heq ▸ skipWs_tail cs)
                      · exact absurd h (by simp)
                    · exact absurd h (by simp)
    · intro cs acc xs rest h
      simp only [parseElems] at h
      split at h
      · exact absurd h (by simp)
      · rename_i v rest0 heq1
        split at h
        · rename_i rest2 heq2
          exact tailOf_trans (tailOf_trans (ihE rest2 (acc ++ [v]) xs rest h)
            (skipWs_cons_tail heq2)) (ihV cs v rest0 heq1)
        · rename_i rest2 heq2
          simp only [Option.some.injEq, Prod.mk.injEq] at h
          obtain ⟨h1, h2⟩ := h
          subst h2
          exact tailOf_trans (skipWs_cons_tail heq2) (ihV cs v rest0 heq1)
        · exact absurd h (by simp)
    · intro cs acc fs rest h
      simp only [parseMembers] at h
      split at h
      · rename_i cs1 heq
        split at h
        · exact absurd h (by simp)
        · rename_i key cs2 hsb
          split at h
          · rename_i cs3 heq2
            split at h
            · exact absurd h (by simp)
            · rename_i v cs4 hpv
              split at h
              · rename_i cs5 heq3
                have base : tailOf cs5 cs :=
                  tailOf_trans (tailOf_trans (tailOf_trans (tailOf_trans
                    (skipWs_cons_tail heq3) (ihV cs3 v cs4 hpv)) (skipWs_cons_tail heq2))
                    (parseStringBody_tail cs1 key cs2 hsb)) (skipWs_cons_tail heq)
                exact tailOf_trans (ihM cs5 _ fs rest h) base
              · rename_i c2 cs5 heq3
                split at h
                · simp only [Option.some.injEq, Prod.mk.injEq] at h
                  obtain ⟨h1, h2⟩ := h
                  subst h2
                  exact tailOf_trans (tailOf_trans (tailOf_trans (tailOf_trans
                    (skipWs_cons_tail heq3) (ihV cs3 v cs4 hpv)) (skipWs_cons_tail heq2))
                    (parseStringBody_tail cs1 key cs2 hsb)) (skipWs_cons_tail heq)
                · exact absurd h (by simp)
              · exact absurd h (by simp)
          · exact absurd h (by simp)
      · exact absurd h (by simp)

theorem unescape_not_alpha (c d : Char) (h : unescape c = some d) :
    d.isAlpha = false := by
  unfold unescape at h
  split at h
  · injection h with h1
    rw [← h1]
    decide
  · split at h
    · injection h with h1
      rw [← h1]
      decide
    · split at h
      · injection h with h1
        rw [← h1]
        decide
      · split at h
        · injection h with h1
          rw [← h1]
          decide
        · split at h
          · injection h with h1
            rw [← h1]
            decide
          · split at h
            · injection h with h1
              rw [← h1]
              decide
            · split at h
              · injection h with h1
                rw [← h1]
                decide
              · split at h
                · injection h with h1
                  rw [← h1]
                  decide
                · exact absurd h (by simp)

theorem parseStringBody_lit_n : ∀ (n : Nat) (cs : List Char), cs.length ≤ n →
    ∀ out rest, parseStringBody cs = some (out, rest) →
    (∀ c ∈ out, c.isAlpha = true) → cs = out ++ '"' :: rest := by
  intro n
  induction n with
  | zero =>
    intro cs hl out rest h
    cases cs with
    | nil => simp [parseStringBody] at h
    | cons c t => simp at hl
  | succ n ih =>
    intro cs hl out rest h ha
    rw [parseStringBody.eq_def] at h
    split at h
    · exact absurd h (by simp)
    · rename_i c2 cs2
      split at h
      · -- quote
        rename_i hq
        simp only [Option.some.injEq, Prod.mk.injEq] at h
        obtain ⟨h1, h2⟩ := h
        subst h2
        rw [← h1, hq]
        rfl
      · split at h
        · -- backslash: produces an escape output, never a letter
          split at h
          · exact absurd h (by simp)
          · rename_i e cs3
            split at h
            · rename_i d hu
              split at h
              · rename_i out0 rest0 hrec
                simp only [Option.some.injEq, Prod.mk.injEq] at h
                obtain ⟨h1, h2⟩ := h
                have hd : d.isAlpha = true := by
                  apply ha
                  rw [← h1]
                  exact List.mem_cons_self d out0
                rw [unescape_not_alpha e d hu] at hd
                exact absurd hd (by simp)
              · exact absurd h (by simp)
            · exact absurd h (by simp)
        · split at h
          · exact absurd h (by simp)
          · -- ordinary character, copied literally
            split at h
            · rename_i out0 rest0 hrec
              simp only [Option.some.injEq, Prod.mk.injEq] at h
              obtain ⟨h1, h2⟩ := h
              subst h2
              have hlen : cs2.length ≤ n := by
                simp at hl
                omega
              have ha0 : ∀ c ∈ out0, c.isAlpha = true := by
                intro c hc
                apply ha
                rw [← h1]
                exact List.mem_cons_of_mem c2 hc
              rw [← h1, ih cs2 hlen out0 rest0 hrec ha0]
              rfl
            · exact absurd h (by simp)

theorem parseStringBody_lit (cs out rest : List Char)
    (h : parseStringBody cs = some (out, rest))
    (ha : ∀ c ∈ out, c.isAlpha = true) : cs = out ++ '"' :: rest :=
  parseStringBody_lit_n cs.length cs le_rfl out rest h ha

theorem headMatches_self (p t : List Char) : headMatches p (p ++ t) = true := by
  induction p with
  | nil => rfl
  | cons a as ih => simp [headMatches, ih]

theorem hasSubList_of_head (pat l : List Char) (h : headMatches pat l = true) :
    hasSubList pat l = true := by
  cases l with
  | nil => exact h
  | cons c cs => simp [hasSubList, h]

theorem hasSubList_intro (pre pat post : List Char) :
    hasSubList pat (pre ++ (pat ++ post)) = true := by
  induction pre with
  | nil => exact hasSubList_of_head pat (pat ++ post) (headMatches_self pat post)
  | cons a t ih => simp [hasSubList, ih]

theorem tailOf_sub {b c : List Char} (pat : List Char) (ht : tailOf b c)
    (hs : ∃ pre post, b = pre ++ (pat ++ post)) :
    ∃ pre post, c = pre ++ (pat ++ post) := by
  obtain ⟨q, hq⟩ := ht
  obtain ⟨pre, post, hb⟩ := hs
  exact ⟨q ++ pre, post, by rw [hq, hb, List.append_assoc]⟩

theorem insert_lookup_cases (acc : List (String × Json)) (key k : String) (v w : Json)
    (h : jsLookup (jsObjInsert acc key v) k = some w) :
    k = key ∨ jsLookup acc k = some w := by
  by_cases hk : k = key
  · exact Or.inl hk
  · right
    rw [← jsLookup_insert_ne acc key k v hk]
    exact h

theorem parseMembers_key_n : ∀ (fuel : Nat) (cs : List Char)
    (acc fs : List (String × Json)) (rest : List Char) (k : String) (v : Json),
    parseMembers fuel cs acc = some (fs, rest) →
    jsLookup fs k = some v →
    jsLookup acc k = none →
    (∀ c ∈ k.data, c.isAlpha = true) →
    ∃ pre post, cs = pre ++ (('"' :: (k.data ++ ['"'])) ++ post) := by
  intro fuel
  induction fuel with
  | zero =>
    intro cs acc fs rest k v h
    simp [parseMembers] at h
  | succ n ih =>
    intro cs acc fs rest k v h hv hacc ha
    simp only [parseMembers] at h
    split at h
    · rename_i cs1 heq
      split at h
      · exact absurd h (by simp)
      · rename_i key cs2 hsb
        split at h
        · rename_i cs3 heq2
          split at h
          · exact absurd h (by simp)
          · rename_i v0 cs4 hpv
            have found : k = String.mk key →
                ∃ pre post, cs = pre ++ (('"' :: (k.data ++ ['"'])) ++ post) := by
              intro hk
              have halpha : ∀ c ∈ key, c.isAlpha = true := by
                intro c hc
                apply ha
                rw [hk]
                exact hc
              have hlit := parseStringBody_lit cs1 key cs2 hsb halpha
              obtain ⟨pre0, hpre0⟩ := skipWs_tail cs
              refine ⟨pre0, cs2, ?_⟩
              have hkd : k.data = key := by rw [hk]
              rw [hpre0, heq, hlit, hkd]
              simp [List.append_assoc]
            split at h
            · rename_i cs5 heq3
              by_cases hk : k = String.mk key
              · exact found hk
              · have hacc2 : jsLookup (jsObjInsert acc (String.mk key) v0) k = none := by
                  rw [jsLookup_insert_ne acc (String.mk key) k v0 hk]
                  exact hacc
                have ihres := ih cs5 _ fs rest k v h hv hacc2 ha
                have base : tailOf cs5 cs :=
                  tailOf_trans (tailOf_trans (tailOf_trans (tailOf_trans
                    (skipWs_cons_tail heq3) ((parse_tail n).1 cs3 v0 cs4 hpv))
                    (skipWs_cons_tail heq2)) (parseStringBody_tail cs1 key cs2 hsb))
                    (skipWs_cons_tail heq)
                exact tailOf_sub _ base ihres
            · rename_i c2 cs5 heq3
              split at h
              · simp only [Option.some.injEq, Prod.mk.injEq] at h
                obtain ⟨h1, h2⟩ := h
                rw [← h1] at hv
                cases insert_lookup_cases acc (String.mk key) k v0 v hv with
                | inl hk => exact found hk
                | inr hc =>
                  rw [hacc] at hc
                  exact absurd hc (by simp)
              · exact absurd h (by simp)
            · exact absurd h (by simp)
        · exact absurd h (by simp)
    · exact absurd h (by simp)

theorem jsonParse_obj_key_sub (s : String) (fs : List (String × Json)) (k : String)
    (v : Json) (hp : jsonParse s = some (Json.obj fs))
    (hv : jsLookup fs k = some v) (ha : ∀ c ∈ k.data, c.isAlpha = true) :
    hasSubList ('"' :: (k.data ++ ['"'])) s.data = true := by
  unfold jsonParse at hp
  split at hp
  · rename_i j rest hpv
    split at hp
    · injection hp with hj
      subst hj
      simp only [parseValue] at hpv
      split at hpv
      · exact absurd hpv (by simp)
      · rename_i c cs1 heq
        split at hpv
        · split at hpv
          · exact absurd hpv (by simp)
          · exact absurd hpv (by simp)
        · split at hpv
          · -- object branch
            split at hpv
            · exact absurd hpv (by simp)
            · rename_i c2 rest0 heq2
              split at hpv
              · -- empty object: the key cannot be present
                simp only [Option.some.injEq, Prod.mk.injEq] at hpv
                obtain ⟨h1, h2⟩ := hpv
                injection h1 with h1
                rw [← h1] at hv
                exact absurd hv (by simp [jsLookup])
              · split at hpv
                · rename_i fs2 rest2 hm
                  simp only [Option.some.injEq, Prod.mk.injEq] at hpv
                  obtain ⟨h1, h2⟩ := hpv
                  injection h1 with h1
                  subst h1
                  have hkey := parseMembers_key_n (s.length) cs1 [] fs2 rest2 k v hm hv
                    rfl ha
                  have base : tailOf cs1 s.data := skipWs_cons_tail heq
                  obtain ⟨pre, post, hcc⟩ := tailOf_sub _ base hkey
                  rw [hcc]
                  exact hasSubList_intro pre _ post
                · exact absurd hpv (by simp)
          · split at hpv
            · -- array branch: never an object
              split at hpv
              · exact absurd hpv (by simp)
              · rename_i c2 rest0 heq2
                split at hpv
                · exact absurd hpv (by simp)
                · split at hpv
                  · exact absurd hpv (by simp)
                  · exact absurd hpv (by simp)
            · split at hpv
              · split at hpv
                · exact absurd hpv (by simp)
                · exact absurd hpv (by simp)
              · split at hpv
                · split at hpv
                  · exact absurd hpv (by simp)
                  · exact absurd hpv (by simp)
                · split at hpv
                  · split at hpv
                    · exact absurd hpv (by simp)
                    · exact absurd hpv (by simp)
                  · split at hpv
                    · split at hpv
                      · exact absurd hpv (by simp)
                      · exact absurd hpv (by simp)
                    · exact absurd hpv (by simp)
    · exact absurd hp (by simp)
  · exact absurd hp (by simp)

/-- C3 counterexample: a body whose systemInstruction is null (a falsy value)
contains the key, yet the patch forwards it unchanged - no field is renamed -
because the code tests the value for truthiness, not for presence. -/
theorem patchBody_falsy_cx :
    jsonParse cxBody = some (Json.obj [("systemInstruction", Json.null)]) ∧
    patchBody cxBody = cxBody ∧
    containsSub "\"system_instruction\"" (patchBody cxBody) = false :=
  ⟨rfl, rfl, rfl⟩

/-- C3 (amended): for every request whose body is a JSON object containing the
key systemInstruction with a truthy value, the patched fetch forwards the URL
and all other options unchanged and the body restringified with that single
field renamed to system_instruction (same value, original key deleted, every
other key unchanged); a body whose raw text does not contain the quoted key is
always forwarded unchanged. -/
theorem googleFetchPatch_spec {ρ : Type} (url : String) (opts : FetchOpts ρ)
    (s : String) (fs : List (String × Json)) (v : Json)
    (hb : opts.body = some s)
    (hp : jsonParse s = some (Json.obj fs))
    (hv : jsLookup fs "systemInstruction" = some v)
    (ht : truthy v = true) :
    patchedRequest url opts =
      (url, { body := some (stringifyJson (Json.obj (renameSI fs))),
              rest := opts.rest }) ∧
    jsLookup (renameSI fs) "system_instruction" = some v ∧
    jsLookup (renameSI fs) "systemInstruction" = none ∧
    (∀ k, ¬(k = "systemInstruction") → ¬(k = "system_instruction") →
      jsLookup (renameSI fs) k = jsLookup fs k) ∧
    (∀ s2, containsSub quotedSI s2 = false → patchBody s2 = s2) := by
  have halpha : ∀ c ∈ ("systemInstruction" : String).data, c.isAlpha = true := by decide
  have hsub : containsSub quotedSI s = true := by
    have hx := jsonParse_obj_key_sub s fs "systemInstruction" v hp hv halpha
    unfold containsSub
    exact hx
  have hpb : patchBody s = stringifyJson (Json.obj (renameSI fs)) := by
    simp [patchBody, hsub, hp, jsTruthyOpt, hv, ht]
  refine ⟨?_, renameSI_new fs v hv, renameSI_old fs v hv,
    fun k h1 h2 => renameSI_other fs v k hv h1 h2,
    fun s2 h2 => by simp [patchBody, h2]⟩
  simp [patchedRequest, hb, hpb]

/-- Witness for C3 at a concrete body with a truthy systemInstruction. -/
theorem googleFetchPatch_spec_witness :
    patchedRequest "u" ({ body := some okBody, rest := () } : FetchOpts Unit) =
      ("u", { body := some (stringifyJson (Json.obj (renameSI
        [("systemInstruction", Json.str "hi")]))), rest := () }) ∧
    jsLookup (renameSI [("systemInstruction", Json.str "hi")]) "system_instruction" =
      some (Json.str "hi") ∧
    jsLookup (renameSI [("systemInstruction", Json.str "hi")]) "systemInstruction" =
      none ∧
    (∀ k, ¬(k = "systemInstruction") → ¬(k = "system_instruction") →
      jsLookup (renameSI [("systemInstruction", Json.str "hi")]) k =
        jsLookup [("systemInstruction", Json.str "hi")] k) ∧
    (∀ s2, containsSub quotedSI s2 = false → patchBody s2 = s2) :=
  googleFetchPatch_spec "u" { body := some okBody, rest := () } okBody
    [("systemInstruction", Json.str "hi")] (Json.str "hi") rfl rfl rfl rfl
